import Mathlib

/-!
# StudentAttendence_Project: the attendance backend of `src/index.js`

A shallow embedding of the Express handlers of `src/index.js` and the properties of the
attendance ledger that follow from them.

Modelling conventions.

* The three module-level arrays `users`, `classes`, `attendance` are lists. `users` and
  `classes` are never written by any handler; `attendance` is the only mutable state and is
  passed explicitly: a handler takes the ledger and returns the response together with the
  ledger after the call.
* Identifiers, roles, dates and statuses are JavaScript strings compared with `===`; they are
  `String` here and compared with `==`. The fields of a request body are taken to have the
  types of the data model (`classId`, `date` strings, `records` a list of
  `{studentId, status}`).
* `res.json(x)` without a preceding `res.status(n)` answers with status 200.
* `attendance.length` is a natural number and `(n).toString()` of a non-negative integer is
  its decimal representation, `Nat.repr`.
* `jwt.verify`, `jwt.sign` and `bcrypt.compare` are external; they are parameters of the
  handlers that call them. `bcrypt.compare` returns a promise that may reject; a rejection is
  the result `none` and sends the login handler to its `catch`.
* `authHeader.split(' ')` is `splitSpace`, defined by recursion on the characters.
* A route registered as `app.get(path, authenticateToken, handler)` is `serveProtected`: the
  middleware first, then the handler with `req.user` set; `Store` holds the three arrays.
* The `catch` branch of `POST /api/auth/login` (status 500) is reached when `bcrypt.compare`
  rejects, which it does when the password of the request is absent or not a string; it is
  part of `postAuthLogin`. The `catch` branches of the two attendance handlers are reached
  only when the body of the handler throws, which does not happen on inputs of the types
  above; they are not part of the embedding.
-/

namespace StudentAttendance

/-! ## Data model -/

/-- One entry of the `users` array (`src/index.js` lines 17-32). -/
structure User where
  id : String
  name : String
  email : String
  password : String
  role : String
  deriving DecidableEq, Repr

/-- One entry of the `classes` array (`src/index.js` lines 34-49). -/
structure ClassSection where
  id : String
  name : String
  schedule : String
  teacherId : String
  students : List String
  deriving DecidableEq, Repr

/-- One element of the `records` array of an attendance session. -/
structure AttendanceRecord where
  studentId : String
  status : String
  deriving DecidableEq, Repr

/-- One entry of the `attendance` array (`src/index.js` lines 51-68). -/
structure AttendanceSession where
  id : String
  classId : String
  date : String
  records : List AttendanceRecord
  deriving DecidableEq, Repr

/-- The decoded token payload that `authenticateToken` stores in `req.user`. -/
structure TokenUser where
  id : String
  role : String
  deriving DecidableEq, Repr

/-- The `user` object of a successful login response (`src/index.js` lines 106-111). -/
structure PublicUser where
  id : String
  name : String
  email : String
  role : String
  deriving DecidableEq, Repr

/-- The JSON payloads the handlers send. -/
inductive Body where
  | message (text : String)
  | login (token : String) (user : PublicUser)
  | classList (cs : List ClassSection)
  | session (s : AttendanceSession)
  | sessionList (ss : List AttendanceSession)
  deriving DecidableEq, Repr

/-- An HTTP response: status code and JSON payload. -/
structure Response where
  status : Nat
  body : Body
  deriving DecidableEq, Repr

/-- The body of `POST /api/attendance`: `const { classId, date, records } = req.body`. -/
structure MarkBody where
  classId : String
  date : String
  records : List AttendanceRecord
  deriving DecidableEq, Repr

/-- The body of `POST /api/auth/login`: `const { email, password } = req.body`. Neither field
is checked by the handler before use; `none` stands for a field that is absent or not a
string. -/
structure LoginBody where
  email : Option String
  password : Option String
  deriving DecidableEq, Repr

/-! ## Seeded stores -/

/-- The seeded `users` array. -/
def users : List User :=
  [ { id := "1", name := "John Doe", email := "teacher@example.com",
      password := "$2a$10$XH9CdcQZkV/Tpr0SFnNR5eGQPQeARSgF9G4cOsXz4hoZkVnJM6Uaa",
      role := "teacher" },
    { id := "2", name := "Jane Smith", email := "student@example.com",
      password := "$2a$10$XH9CdcQZkV/Tpr0SFnNR5eGQPQeARSgF9G4cOsXz4hoZkVnJM6Uaa",
      role := "student" } ]

/-- The seeded `classes` array. -/
def classes : List ClassSection :=
  [ { id := "1", name := "Mathematics 101", schedule := "MWF 9:00 AM - 10:30 AM",
      teacherId := "1", students := ["2"] },
    { id := "2", name := "Physics 201", schedule := "TTh 11:00 AM - 12:30 PM",
      teacherId := "1", students := ["2"] } ]

/-- The seeded `attendance` array. -/
def attendance : List AttendanceSession :=
  [ { id := "1", classId := "1", date := "2025-04-01",
      records := [{ studentId := "2", status := "present" }] },
    { id := "2", classId := "1", date := "2025-04-03",
      records := [{ studentId := "2", status := "absent" }] } ]

/-! ## Handlers -/

/-- The pieces of a character sequence between its spaces: a space closes the current piece
and opens the next, so consecutive spaces give empty pieces and the empty sequence gives one
empty piece. -/
def splitSpaceChars : List Char → List (List Char)
  | [] => [[]]
  | c :: cs =>
    if c = ' ' then [] :: splitSpaceChars cs
    else
      match splitSpaceChars cs with
      | [] => [[c]]
      | piece :: pieces => (c :: piece) :: pieces

/-- The JavaScript call `s.split(' ')`, by structural recursion on the characters. -/
def splitSpace (s : String) : List String :=
  (splitSpaceChars s.data).map String.mk

/-- The middleware `authenticateToken` (`src/index.js` lines 74-85). `authHeader` is
`req.headers['authorization']` (`none` when the header is absent) and `verify` stands for
`jwt.verify(token, JWT_SECRET, ..)`: `none` when it reports an error, the payload otherwise.
The result is either the response that ends the request or the value stored in `req.user`
before `next()` runs the handler. -/
def authenticateToken (verify : String → Option TokenUser) (authHeader : Option String) :
    Except Response TokenUser :=
  let token : Option String :=
    match authHeader with
    | none => none
    | some h => if h = "" then none else (splitSpace h)[1]?
  match token with
  | none => .error ⟨401, .message "Unauthorized"⟩
  | some t =>
    if t = "" then .error ⟨401, .message "Unauthorized"⟩
    else
      match verify t with
      | none => .error ⟨403, .message "Forbidden"⟩
      | some user => .ok user

/-- The handler of `POST /api/auth/login` (`src/index.js` lines 88-117). `compare` stands for
`await bcrypt.compare(password, user.password)`: `some isMatch` when the promise resolves and
`none` when it rejects, in which case the `catch` answers 500. `sign` stands for
`jwt.sign(payload, JWT_SECRET, { expiresIn: '1d' })`. A stored email is a string, so
`u.email === email` holds only for a request email that is that string. -/
def postAuthLogin (compare : Option String → String → Option Bool)
    (sign : TokenUser → String) (users : List User) (body : LoginBody) : Response :=
  match users.find? (fun u => some u.email == body.email) with
  | none => ⟨401, .message "Invalid email or password"⟩
  | some user =>
    match compare body.password user.password with
    | none => ⟨500, .message "Server error"⟩
    | some isMatch =>
      if !isMatch then
        ⟨401, .message "Invalid email or password"⟩
      else
        ⟨200, .login (sign ⟨user.id, user.role⟩) ⟨user.id, user.name, user.email, user.role⟩⟩

/-- The handler of `GET /api/classes/teacher` (`src/index.js` lines 120-127). -/
def getClassesTeacher (user : TokenUser) (classes : List ClassSection) : Response :=
  if user.role != "teacher" then ⟨403, .message "Forbidden"⟩
  else ⟨200, .classList (classes.filter (fun cls => cls.teacherId == user.id))⟩

/-- The handler of `GET /api/classes/student` (`src/index.js` lines 130-137). -/
def getClassesStudent (user : TokenUser) (classes : List ClassSection) : Response :=
  if user.role != "student" then ⟨403, .message "Forbidden"⟩
  else ⟨200, .classList (classes.filter (fun cls => cls.students.contains user.id))⟩

/-- The assignment `existingAttendance.records = records` seen from the array: `find` returns
the first element that satisfies the predicate, and the assignment mutates that element in
place, so the first session with the given `classId` and `date` gets the new records and every
other element stays as it is. -/
def assignRecords (classId date : String) (records : List AttendanceRecord) :
    List AttendanceSession → List AttendanceSession
  | [] => []
  | a :: rest =>
    if a.classId == classId && a.date == date then { a with records := records } :: rest
    else a :: assignRecords classId date records rest

/-- The handler of `POST /api/attendance` (`src/index.js` lines 140-177): the response and the
`attendance` array after the call. -/
def postAttendance (user : TokenUser) (classes : List ClassSection)
    (attendance : List AttendanceSession) (body : MarkBody) :
    Response × List AttendanceSession :=
  if user.role != "teacher" then
    (⟨403, .message "Only teachers can mark attendance"⟩, attendance)
  else
    match classes.find? (fun cls => cls.id == body.classId && cls.teacherId == user.id) with
    | none => (⟨404, .message "Class not found or not authorized"⟩, attendance)
    | some _ =>
      match attendance.find? (fun a => a.classId == body.classId && a.date == body.date) with
      | some existingAttendance =>
        (⟨200, .session { existingAttendance with records := body.records }⟩,
          assignRecords body.classId body.date body.records attendance)
      | none =>
        let newAttendance : AttendanceSession :=
          { id := Nat.repr (attendance.length + 1), classId := body.classId,
            date := body.date, records := body.records }
        (⟨201, .session newAttendance⟩, attendance ++ [newAttendance])

/-- The handler of `GET /api/attendance/:classId` (`src/index.js` lines 180-203). It reads the
stores and writes none of them. -/
def getAttendance (user : TokenUser) (classes : List ClassSection)
    (attendance : List AttendanceSession) (classId : String) : Response :=
  if user.role == "teacher" then
    if !classes.any (fun cls => cls.id == classId && cls.teacherId == user.id) then
      ⟨403, .message "Not authorized to view this class"⟩
    else ⟨200, .sessionList (attendance.filter (fun a => a.classId == classId))⟩
  else
    if !classes.any (fun cls => cls.id == classId && cls.students.contains user.id) then
      ⟨403, .message "Not enrolled in this class"⟩
    else ⟨200, .sessionList (attendance.filter (fun a => a.classId == classId))⟩

/-! ## Request sequences and ledger predicates -/

/-- One authenticated `POST /api/attendance` request: the caller and the body. -/
structure MarkRequest where
  user : TokenUser
  body : MarkBody
  deriving DecidableEq, Repr

/-- The ledger after a sequence of `POST /api/attendance` requests, served one after the
other. -/
def runPosts (classes : List ClassSection) :
    List AttendanceSession → List MarkRequest → List AttendanceSession
  | ledger, [] => ledger
  | ledger, r :: rs => runPosts classes (postAttendance r.user classes ledger r.body).2 rs

/-- No two sessions at different positions of the ledger have the same `classId` and the same
`date`. -/
def UniqueKeys (ledger : List AttendanceSession) : Prop :=
  ledger.Pairwise (fun a b => ¬ (a.classId = b.classId ∧ a.date = b.date))

instance (ledger : List AttendanceSession) : Decidable (UniqueKeys ledger) := by
  unfold UniqueKeys; infer_instance

/-- The session ids of the ledger are pairwise distinct. -/
def UniqueIds (ledger : List AttendanceSession) : Prop :=
  (ledger.map (fun a => a.id)).Nodup

instance (ledger : List AttendanceSession) : Decidable (UniqueIds ledger) := by
  unfold UniqueIds; infer_instance

/-- The caller may mark attendance for `classId`: the role is `teacher` and some class of the
roster has that id and the caller as its teacher. -/
def CanMark (user : TokenUser) (classes : List ClassSection) (classId : String) : Prop :=
  user.role = "teacher" ∧ ∃ cls ∈ classes, cls.id = classId ∧ cls.teacherId = user.id

instance (user : TokenUser) (classes : List ClassSection) (classId : String) :
    Decidable (CanMark user classes classId) := by
  unfold CanMark; infer_instance

/-- Some session of the ledger has the given `classId` and `date`. -/
def HasKey (ledger : List AttendanceSession) (classId date : String) : Prop :=
  ∃ a ∈ ledger, a.classId = classId ∧ a.date = date

instance (ledger : List AttendanceSession) (classId date : String) :
    Decidable (HasKey ledger classId date) := by
  unfold HasKey; infer_instance

/-- The sessions of the ledger stored under the key `(classId, date)`, in ledger order. -/
def sessionsFor (ledger : List AttendanceSession) (classId date : String) :
    List AttendanceSession :=
  ledger.filter (fun a => a.classId == classId && a.date == date)

/-- The session ids are the decimal representations of the positions, counted from one: the
shape every ledger has that grew from the seeded one by `attendance.push`. -/
def IdsByPosition (ledger : List AttendanceSession) : Prop :=
  ledger.map (fun a => a.id) = (List.range ledger.length).map (fun i => Nat.repr (i + 1))

instance (ledger : List AttendanceSession) : Decidable (IdsByPosition ledger) := by
  unfold IdsByPosition; infer_instance

/-- The number that a list of decimal digit characters denotes, continuing from `start`; it
reads back what `Nat.repr` prints. -/
def digitsValue (cs : List Char) (start : Nat) : Nat :=
  cs.foldl (fun acc c => acc * 10 + (c.toNat - 48)) start

/-! ## The protected routes as one server step -/

/-- The three module-level arrays of `src/index.js` taken together. -/
structure Store where
  users : List User
  classes : List ClassSection
  attendance : List AttendanceSession
  deriving DecidableEq, Repr

/-- The four routes registered behind `authenticateToken`, each with what its handler reads
from the request: `GET /api/classes/teacher`, `GET /api/classes/student`,
`POST /api/attendance` (the body) and `GET /api/attendance/:classId` (the path parameter). -/
inductive ProtectedRequest where
  | classesTeacher
  | classesStudent
  | markAttendance (body : MarkBody)
  | attendanceForClass (classId : String)
  deriving DecidableEq, Repr

/-- The handler of a protected route run with `req.user = user`: the response and the three
arrays afterwards. Only `POST /api/attendance` assigns to any of them. -/
def handleProtected (user : TokenUser) (store : Store) :
    ProtectedRequest → Response × Store
  | .classesTeacher => (getClassesTeacher user store.classes, store)
  | .classesStudent => (getClassesStudent user store.classes, store)
  | .markAttendance body =>
    ((postAttendance user store.classes store.attendance body).1,
      { store with attendance := (postAttendance user store.classes store.attendance body).2 })
  | .attendanceForClass classId =>
    (getAttendance user store.classes store.attendance classId, store)

/-- A protected route as Express runs it, `app.get(path, authenticateToken, handler)`: the
middleware either ends the request with its own response, and the handler never runs, or
calls `next()` with `req.user` set. -/
def serveProtected (verify : String → Option TokenUser) (store : Store)
    (authHeader : Option String) (req : ProtectedRequest) : Response × Store :=
  match authenticateToken verify authHeader with
  | .error res => (res, store)
  | .ok user => handleProtected user store req

/-! ## The four outcomes of `POST /api/attendance` -/

theorem canMark_iff_find (user : TokenUser) (classes : List ClassSection) (classId : String) :
    CanMark user classes classId ↔
      user.role = "teacher" ∧
        (classes.find? (fun cls => cls.id == classId && cls.teacherId == user.id)).isSome := by
  unfold CanMark
  constructor
  · rintro ⟨hr, cls, hmem, hid, ht⟩
    refine ⟨hr, ?_⟩
    rw [List.find?_isSome]
    exact ⟨cls, hmem, by simp [hid, ht]⟩
  · rintro ⟨hr, hf⟩
    rw [List.find?_isSome] at hf
    obtain ⟨cls, hmem, hp⟩ := hf
    simp only [Bool.and_eq_true, beq_iff_eq] at hp
    exact ⟨hr, cls, hmem, hp.1, hp.2⟩

theorem hasKey_iff_find (ledger : List AttendanceSession) (classId date : String) :
    HasKey ledger classId date ↔
      (ledger.find? (fun a => a.classId == classId && a.date == date)).isSome := by
  unfold HasKey
  rw [List.find?_isSome]
  constructor
  · rintro ⟨a, hmem, h1, h2⟩
    exact ⟨a, hmem, by simp [h1, h2]⟩
  · rintro ⟨a, hmem, hp⟩
    simp only [Bool.and_eq_true, beq_iff_eq] at hp
    exact ⟨a, hmem, hp.1, hp.2⟩

theorem postAttendance_not_teacher (user : TokenUser) (classes : List ClassSection)
    (ledger : List AttendanceSession) (body : MarkBody) (hr : user.role ≠ "teacher") :
    postAttendance user classes ledger body =
      (⟨403, .message "Only teachers can mark attendance"⟩, ledger) := by
  simp [postAttendance, hr]

theorem postAttendance_not_owner (user : TokenUser) (classes : List ClassSection)
    (ledger : List AttendanceSession) (body : MarkBody) (hr : user.role = "teacher")
    (hc : ¬ CanMark user classes body.classId) :
    postAttendance user classes ledger body =
      (⟨404, .message "Class not found or not authorized"⟩, ledger) := by
  have hf : classes.find? (fun cls => cls.id == body.classId && cls.teacherId == user.id)
      = none := by
    rw [canMark_iff_find] at hc
    cases h : classes.find? (fun cls => cls.id == body.classId && cls.teacherId == user.id)
    · rfl
    · exact absurd ⟨hr, by simp [h]⟩ hc
  simp [postAttendance, hr, hf]

theorem postAttendance_update (user : TokenUser) (classes : List ClassSection)
    (ledger : List AttendanceSession) (body : MarkBody)
    (hc : CanMark user classes body.classId) (existing : AttendanceSession)
    (he : ledger.find? (fun a => a.classId == body.classId && a.date == body.date)
      = some existing) :
    postAttendance user classes ledger body =
      (⟨200, .session { existing with records := body.records }⟩,
        assignRecords body.classId body.date body.records ledger) := by
  rw [canMark_iff_find] at hc
  obtain ⟨hr, hf⟩ := hc
  obtain ⟨cls, hcls⟩ := Option.isSome_iff_exists.mp hf
  simp [postAttendance, hr, hcls, he]

theorem postAttendance_create (user : TokenUser) (classes : List ClassSection)
    (ledger : List AttendanceSession) (body : MarkBody)
    (hc : CanMark user classes body.classId)
    (he : ledger.find? (fun a => a.classId == body.classId && a.date == body.date) = none) :
    postAttendance user classes ledger body =
      (⟨201, .session ⟨Nat.repr (ledger.length + 1), body.classId, body.date, body.records⟩⟩,
        ledger ++ [⟨Nat.repr (ledger.length + 1), body.classId, body.date, body.records⟩]) := by
  rw [canMark_iff_find] at hc
  obtain ⟨hr, hf⟩ := hc
  obtain ⟨cls, hcls⟩ := Option.isSome_iff_exists.mp hf
  simp [postAttendance, hr, hcls, he]

/-! ## Facts about `assignRecords` -/

theorem assignRecords_map_key (classId date : String) (records : List AttendanceRecord)
    (ledger : List AttendanceSession) :
    (assignRecords classId date records ledger).map (fun a => (a.classId, a.date))
      = ledger.map (fun a => (a.classId, a.date)) := by
  induction ledger with
  | nil => rfl
  | cons a rest ih =>
    unfold assignRecords
    split
    · simp
    · simp [ih]

theorem assignRecords_map_id (classId date : String) (records : List AttendanceRecord)
    (ledger : List AttendanceSession) :
    (assignRecords classId date records ledger).map (fun a => a.id)
      = ledger.map (fun a => a.id) := by
  induction ledger with
  | nil => rfl
  | cons a rest ih =>
    unfold assignRecords
    split
    · simp
    · simp [ih]

theorem assignRecords_length (classId date : String) (records : List AttendanceRecord)
    (ledger : List AttendanceSession) :
    (assignRecords classId date records ledger).length = ledger.length := by
  have h := congrArg List.length (assignRecords_map_id classId date records ledger)
  simpa using h

theorem uniqueKeys_iff_nodup (ledger : List AttendanceSession) :
    UniqueKeys ledger ↔ (ledger.map (fun a => (a.classId, a.date))).Nodup := by
  unfold UniqueKeys List.Nodup
  rw [List.pairwise_map]
  constructor <;> intro h <;> refine h.imp ?_ <;> intro a b hab <;>
    simpa [Prod.ext_iff] using hab

theorem uniqueKeys_assignRecords (classId date : String) (records : List AttendanceRecord)
    (ledger : List AttendanceSession) (h : UniqueKeys ledger) :
    UniqueKeys (assignRecords classId date records ledger) := by
  rw [uniqueKeys_iff_nodup] at h ⊢
  rw [assignRecords_map_key]
  exact h

theorem uniqueKeys_append_new (ledger : List AttendanceSession) (s : AttendanceSession)
    (h : UniqueKeys ledger) (hs : ¬ HasKey ledger s.classId s.date) :
    UniqueKeys (ledger ++ [s]) := by
  unfold UniqueKeys at h ⊢
  rw [List.pairwise_append]
  refine ⟨h, List.pairwise_singleton _ _, ?_⟩
  intro a ha b hb
  rw [List.mem_singleton] at hb
  subst hb
  intro hk
  exact hs ⟨a, ha, hk.1, hk.2⟩

theorem uniqueKeys_postAttendance (user : TokenUser) (classes : List ClassSection)
    (ledger : List AttendanceSession) (body : MarkBody) (h : UniqueKeys ledger) :
    UniqueKeys (postAttendance user classes ledger body).2 := by
  by_cases hr : user.role = "teacher"
  · by_cases hc : CanMark user classes body.classId
    · cases he : ledger.find? (fun a => a.classId == body.classId && a.date == body.date) with
      | none =>
        rw [postAttendance_create user classes ledger body hc he]
        apply uniqueKeys_append_new _ _ h
        rw [hasKey_iff_find]
        simp [he]
      | some existing =>
        rw [postAttendance_update user classes ledger body hc existing he]
        exact uniqueKeys_assignRecords _ _ _ _ h
    · rw [postAttendance_not_owner user classes ledger body hr hc]
      exact h
  · rw [postAttendance_not_teacher user classes ledger body hr]
    exact h

theorem uniqueKeys_attendance : UniqueKeys attendance := by decide

/-! ## Where the written records end up -/

theorem assignRecords_split (classId date : String) (records : List AttendanceRecord)
    (ledger : List AttendanceSession) (existing : AttendanceSession)
    (he : ledger.find? (fun a => a.classId == classId && a.date == date) = some existing) :
    ∃ pre post, ledger = pre ++ existing :: post ∧
      (∀ a ∈ pre, ¬ (a.classId = classId ∧ a.date = date)) ∧
      existing.classId = classId ∧ existing.date = date ∧
      assignRecords classId date records ledger
        = pre ++ { existing with records := records } :: post := by
  induction ledger with
  | nil => simp at he
  | cons a rest ih =>
    cases hp : (a.classId == classId && a.date == date) with
    | true =>
      simp only [List.find?_cons, hp, Option.some.injEq] at he
      subst he
      have hk : a.classId = classId ∧ a.date = date := by simpa using hp
      refine ⟨[], rest, rfl, by simp, hk.1, hk.2, ?_⟩
      simp [assignRecords, hp]
    | false =>
      simp only [List.find?_cons, hp] at he
      obtain ⟨pre, post, hl, hpre, h1, h2, hassign⟩ := ih he
      refine ⟨a :: pre, post, by rw [hl]; rfl, ?_, h1, h2, ?_⟩
      · intro b hb
        rcases List.mem_cons.mp hb with hb | hb
        · subst hb
          intro hk
          simp [hk.1, hk.2] at hp
        · exact hpre b hb
      · simp [assignRecords, hp, hassign]

theorem find_assignRecords (classId date : String) (records : List AttendanceRecord)
    (ledger : List AttendanceSession) (existing : AttendanceSession)
    (he : ledger.find? (fun a => a.classId == classId && a.date == date) = some existing) :
    (assignRecords classId date records ledger).find?
        (fun a => a.classId == classId && a.date == date)
      = some { existing with records := records } := by
  induction ledger with
  | nil => simp at he
  | cons a rest ih =>
    cases hp : (a.classId == classId && a.date == date) with
    | true =>
      simp only [List.find?_cons, hp, Option.some.injEq] at he
      subst he
      simp [assignRecords, hp, List.find?_cons]
    | false =>
      simp only [List.find?_cons, hp] at he
      simp [assignRecords, hp, List.find?_cons, ih he]

theorem find_append_new (ledger : List AttendanceSession) (s : AttendanceSession)
    (he : ledger.find? (fun a => a.classId == s.classId && a.date == s.date) = none) :
    (ledger ++ [s]).find? (fun a => a.classId == s.classId && a.date == s.date) = some s := by
  induction ledger with
  | nil => simp
  | cons a rest ih =>
    cases hp : (a.classId == s.classId && a.date == s.date) with
    | true => simp [List.find?_cons, hp] at he
    | false =>
      simp only [List.find?_cons, hp] at he
      simp only [List.cons_append, List.find?_cons, hp]
      exact ih he

theorem sessionsFor_of_find (ledger : List AttendanceSession) (classId date : String)
    (s : AttendanceSession) (hu : UniqueKeys ledger)
    (he : ledger.find? (fun a => a.classId == classId && a.date == date) = some s) :
    sessionsFor ledger classId date = [s] := by
  unfold sessionsFor
  induction ledger with
  | nil => simp at he
  | cons a rest ih =>
    unfold UniqueKeys at hu
    rw [List.pairwise_cons] at hu
    cases hp : (a.classId == classId && a.date == date) with
    | true =>
      simp only [List.find?_cons, hp, Option.some.injEq] at he
      subst he
      have hk : a.classId = classId ∧ a.date = date := by simpa using hp
      have hnone : rest.filter (fun b => b.classId == classId && b.date == date) = [] := by
        rw [List.filter_eq_nil_iff]
        intro b hb hpb
        have hkb : b.classId = classId ∧ b.date = date := by simpa using hpb
        exact hu.1 b hb ⟨hk.1.trans hkb.1.symm, hk.2.trans hkb.2.symm⟩
      simp only [List.filter_cons, hp, if_true, hnone]
    | false =>
      simp only [List.find?_cons, hp] at he
      simp only [List.filter_cons, hp]
      exact ih hu.2 he

theorem postAttendance_stores (user : TokenUser) (classes : List ClassSection)
    (ledger : List AttendanceSession) (body : MarkBody)
    (hc : CanMark user classes body.classId) :
    ∃ s, (postAttendance user classes ledger body).2.find?
        (fun a => a.classId == body.classId && a.date == body.date) = some s ∧
      s.records = body.records := by
  cases he : ledger.find? (fun a => a.classId == body.classId && a.date == body.date) with
  | none =>
    rw [postAttendance_create user classes ledger body hc he]
    exact ⟨_, find_append_new ledger
      ⟨Nat.repr (ledger.length + 1), body.classId, body.date, body.records⟩ he, rfl⟩
  | some existing =>
    rw [postAttendance_update user classes ledger body hc existing he]
    exact ⟨_, find_assignRecords _ _ _ _ _ he, rfl⟩

theorem assignRecords_of_find_same (classId date : String) (records : List AttendanceRecord)
    (ledger : List AttendanceSession) (s : AttendanceSession)
    (he : ledger.find? (fun a => a.classId == classId && a.date == date) = some s)
    (hs : s.records = records) :
    assignRecords classId date records ledger = ledger := by
  induction ledger with
  | nil => rfl
  | cons a rest ih =>
    cases hp : (a.classId == classId && a.date == date) with
    | true =>
      simp only [List.find?_cons, hp, Option.some.injEq] at he
      subst he
      simp [assignRecords, hp, ← hs]
    | false =>
      simp only [List.find?_cons, hp] at he
      simp [assignRecords, hp, ih he]

/-! ## Decimal representations are distinct -/

theorem digitChar_value (d : Nat) (hd : d < 10) : (Nat.digitChar d).toNat - 48 = d := by
  interval_cases d <;> rfl

theorem digitsValue_toDigitsCore (fuel : Nat) :
    ∀ (n : Nat) (ds : List Char), n < fuel →
      digitsValue (Nat.toDigitsCore 10 fuel n ds) 0 = digitsValue ds n := by
  induction fuel with
  | zero => intro n ds h; omega
  | succ fuel ih =>
    intro n ds h
    unfold Nat.toDigitsCore
    by_cases h0 : n / 10 = 0
    · simp only [h0, if_true]
      have hlt : n % 10 < 10 := Nat.mod_lt _ (by decide)
      simp only [digitsValue, List.foldl_cons, digitChar_value _ hlt]
      congr 1
      omega
    · simp only [h0, if_false]
      rw [ih (n / 10) _ (by omega)]
      have hlt : n % 10 < 10 := Nat.mod_lt _ (by decide)
      simp only [digitsValue, List.foldl_cons, digitChar_value _ hlt]
      congr 1
      omega

theorem digitsValue_repr (n : Nat) : digitsValue (Nat.repr n).data 0 = n := by
  have h := digitsValue_toDigitsCore (n + 1) n [] (by omega)
  simpa [Nat.repr, Nat.toDigits, List.asString, digitsValue] using h

theorem repr_injective : Function.Injective Nat.repr := by
  intro a b h
  have ha := digitsValue_repr a
  rw [h, digitsValue_repr b] at ha
  exact ha.symm

/-! ## Ids follow positions -/

theorem idsByPosition_attendance : IdsByPosition attendance := by decide

theorem idsByPosition_postAttendance (user : TokenUser) (classes : List ClassSection)
    (ledger : List AttendanceSession) (body : MarkBody) (h : IdsByPosition ledger) :
    IdsByPosition (postAttendance user classes ledger body).2 := by
  by_cases hr : user.role = "teacher"
  · by_cases hc : CanMark user classes body.classId
    · cases he : ledger.find? (fun a => a.classId == body.classId && a.date == body.date) with
      | none =>
        rw [postAttendance_create user classes ledger body hc he]
        unfold IdsByPosition at h ⊢
        simp only [List.map_append, List.length_append, List.length_singleton,
          List.range_succ, List.map_cons, List.map_nil, h]
      | some existing =>
        rw [postAttendance_update user classes ledger body hc existing he]
        unfold IdsByPosition at h ⊢
        rw [assignRecords_map_id, assignRecords_length]
        exact h
    · rw [postAttendance_not_owner user classes ledger body hr hc]
      exact h
  · rw [postAttendance_not_teacher user classes ledger body hr]
    exact h

theorem idsByPosition_runPosts (classes : List ClassSection) (reqs : List MarkRequest) :
    ∀ ledger, IdsByPosition ledger → IdsByPosition (runPosts classes ledger reqs) := by
  induction reqs with
  | nil => intro ledger h; exact h
  | cons r rs ih =>
    intro ledger h
    unfold runPosts
    exact ih _ (idsByPosition_postAttendance r.user classes ledger r.body h)

theorem uniqueIds_of_idsByPosition (ledger : List AttendanceSession)
    (h : IdsByPosition ledger) : UniqueIds ledger := by
  unfold UniqueIds
  rw [h]
  refine List.Nodup.map ?_ (List.nodup_range _)
  intro i j hij
  have := repr_injective hij
  omega

theorem fresh_id_of_idsByPosition (ledger : List AttendanceSession)
    (h : IdsByPosition ledger) :
    ∀ a ∈ ledger, a.id ≠ Nat.repr (ledger.length + 1) := by
  intro a ha hid
  have hmem : a.id ∈ ledger.map (fun a => a.id) := List.mem_map.mpr ⟨a, ha, rfl⟩
  rw [h, List.mem_map] at hmem
  obtain ⟨i, hi, hrepr⟩ := hmem
  rw [hid] at hrepr
  have := repr_injective hrepr
  rw [List.mem_range] at hi
  omega

/-! ## The two branches of `GET /api/attendance/:classId` -/

theorem getAttendance_teacher (user : TokenUser) (classes : List ClassSection)
    (ledger : List AttendanceSession) (classId : String) (hr : user.role = "teacher") :
    getAttendance user classes ledger classId =
      if classes.any (fun cls => cls.id == classId && cls.teacherId == user.id) then
        ⟨200, .sessionList (ledger.filter (fun a => a.classId == classId))⟩
      else ⟨403, .message "Not authorized to view this class"⟩ := by
  have hb : (user.role == "teacher") = true := by simp [hr]
  cases h : classes.any (fun cls => cls.id == classId && cls.teacherId == user.id) <;>
    simp only [getAttendance, hb, h] <;> rfl

theorem getAttendance_not_teacher (user : TokenUser) (classes : List ClassSection)
    (ledger : List AttendanceSession) (classId : String) (hr : user.role ≠ "teacher") :
    getAttendance user classes ledger classId =
      if classes.any (fun cls => cls.id == classId && cls.students.contains user.id) then
        ⟨200, .sessionList (ledger.filter (fun a => a.classId == classId))⟩
      else ⟨403, .message "Not enrolled in this class"⟩ := by
  have hb : (user.role == "teacher") = false := by simp [hr]
  cases h : classes.any (fun cls => cls.id == classId && cls.students.contains user.id) <;>
    simp only [getAttendance, hb, h] <;> rfl

theorem any_owner_iff (user : TokenUser) (classes : List ClassSection) (classId : String) :
    classes.any (fun cls => cls.id == classId && cls.teacherId == user.id) = true ↔
      ∃ cls ∈ classes, cls.id = classId ∧ cls.teacherId = user.id := by
  simp [List.any_eq_true]

theorem any_enrolled_iff (user : TokenUser) (classes : List ClassSection) (classId : String) :
    classes.any (fun cls => cls.id == classId && cls.students.contains user.id) = true ↔
      ∃ cls ∈ classes, cls.id = classId ∧ user.id ∈ cls.students := by
  simp [List.any_eq_true]

theorem getAttendance_allowed (user : TokenUser) (classes : List ClassSection)
    (ledger : List AttendanceSession) (classId : String)
    (hv : (user.role = "teacher" ∧
        ∃ cls ∈ classes, cls.id = classId ∧ cls.teacherId = user.id) ∨
      (user.role = "student" ∧
        ∃ cls ∈ classes, cls.id = classId ∧ user.id ∈ cls.students)) :
    getAttendance user classes ledger classId =
      ⟨200, .sessionList (ledger.filter (fun a => a.classId == classId))⟩ := by
  rcases hv with ⟨hr, ho⟩ | ⟨hr, hen⟩
  · rw [getAttendance_teacher user classes ledger classId hr,
      if_pos ((any_owner_iff user classes classId).mpr ho)]
  · have hnt : user.role ≠ "teacher" := by rw [hr]; decide
    rw [getAttendance_not_teacher user classes ledger classId hnt,
      if_pos ((any_enrolled_iff user classes classId).mpr hen)]

/-! ## The lookup of `POST /api/auth/login` -/

theorem find_email_of_nodup (users : List User) (email : Option String) (u : User)
    (hnodup : (users.map (fun v => v.email)).Nodup) (hu : u ∈ users)
    (hemail : some u.email = email) :
    users.find? (fun v => some v.email == email) = some u := by
  induction users with
  | nil => cases hu
  | cons v rest ih =>
    rw [List.map_cons, List.nodup_cons] at hnodup
    rcases List.mem_cons.mp hu with hv | hrest
    · subst hv
      simp [List.find?_cons, hemail]
    · have hne : (some v.email == email) = false := by
        rw [beq_eq_false_iff_ne]
        intro hve
        apply hnodup.1
        have hsame : v.email = u.email := Option.some.inj (hve.trans hemail.symm)
        rw [hsame]
        exact List.mem_map.mpr ⟨u, hrest, rfl⟩
      simp only [List.find?_cons, hne]
      exact ih hnodup.2 hrest

theorem find_email_none (users : List User) (email : Option String)
    (h : ∀ v ∈ users, some v.email ≠ email) :
    users.find? (fun v => some v.email == email) = none := by
  rw [List.find?_eq_none]
  intro v hv
  simpa using h v hv

theorem postAuthLogin_found (compare : Option String → String → Option Bool)
    (sign : TokenUser → String) (users : List User) (body : LoginBody) (u : User)
    (hf : users.find? (fun v => some v.email == body.email) = some u) :
    postAuthLogin compare sign users body =
      match compare body.password u.password with
      | none => ⟨500, .message "Server error"⟩
      | some isMatch =>
        if isMatch then
          ⟨200, .login (sign ⟨u.id, u.role⟩) ⟨u.id, u.name, u.email, u.role⟩⟩
        else ⟨401, .message "Invalid email or password"⟩ := by
  simp only [postAuthLogin, hf]
  cases compare body.password u.password with
  | none => rfl
  | some isMatch => cases isMatch <;> rfl

theorem postAuthLogin_not_found (compare : Option String → String → Option Bool)
    (sign : TokenUser → String) (users : List User) (body : LoginBody)
    (hf : users.find? (fun v => some v.email == body.email) = none) :
    postAuthLogin compare sign users body = ⟨401, .message "Invalid email or password"⟩ := by
  simp [postAuthLogin, hf]

theorem postAuthLogin_same_when_compare_false
    (compare : Option String → String → Option Bool) (sign : TokenUser → String)
    (users : List User) (unknown known : LoginBody) (u : User)
    (hnodup : (users.map (fun v => v.email)).Nodup)
    (hunknown : ∀ v ∈ users, some v.email ≠ unknown.email)
    (hu : u ∈ users) (hemail : some u.email = known.email)
    (hbad : compare known.password u.password = some false) :
    postAuthLogin compare sign users unknown = postAuthLogin compare sign users known ∧
      postAuthLogin compare sign users known
        = ⟨401, .message "Invalid email or password"⟩ := by
  have h1 := postAuthLogin_not_found compare sign users unknown
    (find_email_none users unknown.email hunknown)
  have h2 := postAuthLogin_found compare sign users known u
    (find_email_of_nodup users known.email u hnodup hu hemail)
  rw [hbad] at h2
  exact ⟨by rw [h1, h2]; rfl, by rw [h2]; rfl⟩

theorem splitSpace_empty : (splitSpace "")[1]? = none := by decide

/-! ## Sessions under another date -/

theorem sessionsFor_assignRecords_other (classId other d1 d2 : String)
    (records : List AttendanceRecord) (ledger : List AttendanceSession) (hne : d1 ≠ d2) :
    sessionsFor (assignRecords classId d1 records ledger) other d2
      = sessionsFor ledger other d2 := by
  unfold sessionsFor
  induction ledger with
  | nil => rfl
  | cons a rest ih =>
    cases hp : (a.classId == classId && a.date == d1) with
    | true =>
      have hk : a.classId = classId ∧ a.date = d1 := by simpa using hp
      have hq : (a.classId == other && a.date == d2) = false := by
        have : a.date ≠ d2 := by rw [hk.2]; exact hne
        simp [this]
      simp [assignRecords, hp, List.filter_cons, hq]
    | false =>
      simp [assignRecords, hp, List.filter_cons, ih]

theorem sessionsFor_append_other (ledger : List AttendanceSession) (s : AttendanceSession)
    (other d2 : String) (hne : s.date ≠ d2) :
    sessionsFor (ledger ++ [s]) other d2 = sessionsFor ledger other d2 := by
  simp [sessionsFor, List.filter_append, List.filter_cons, hne]

theorem find_append_other (ledger : List AttendanceSession) (s : AttendanceSession)
    (classId d2 : String) (hne : s.date ≠ d2)
    (he : ledger.find? (fun a => a.classId == classId && a.date == d2) = none) :
    (ledger ++ [s]).find? (fun a => a.classId == classId && a.date == d2) = none := by
  rw [List.find?_eq_none] at he ⊢
  intro a ha
  rcases List.mem_append.mp ha with h | h
  · exact he a h
  · rw [List.mem_singleton] at h
    subst h
    simp [hne]

theorem find_none_of_not_hasKey (ledger : List AttendanceSession) (classId date : String)
    (hk : ¬ HasKey ledger classId date) :
    ledger.find? (fun a => a.classId == classId && a.date == date) = none := by
  rw [hasKey_iff_find] at hk
  cases h : ledger.find? (fun a => a.classId == classId && a.date == date)
  · rfl
  · simp [h] at hk

/-! ## Claims -/

/-- C1. Uniqueness invariant of the attendance ledger: starting from the seeded ledger, or
from any ledger holding at most one session per (classId, date) pair, after every finite
sequence of `POST /api/attendance` requests, with arbitrary callers, rosters and bodies, no
two sessions at different positions of the ledger have the same classId and the same date. -/
theorem uniqueKeys_runPosts (classes : List ClassSection) (reqs : List MarkRequest)
    (ledger : List AttendanceSession) (h : ledger = attendance ∨ UniqueKeys ledger) :
    UniqueKeys (runPosts classes ledger reqs) := by
  have h0 : UniqueKeys ledger := by
    rcases h with h | h
    · rw [h]; exact uniqueKeys_attendance
    · exact h
  clear h
  induction reqs generalizing ledger with
  | nil => exact h0
  | cons r rs ih =>
    unfold runPosts
    exact ih _ (uniqueKeys_postAttendance r.user classes ledger r.body h0)

/-- C1, at a concrete input: three requests on the seeded ledger (an update, a creation and a
denied one) leave a ledger with one session per key. -/
theorem uniqueKeys_runPosts_witness :
    (attendance = attendance ∨ UniqueKeys attendance) ∧
      UniqueKeys (runPosts classes attendance
        [⟨⟨"1", "teacher"⟩, ⟨"1", "2025-04-01", [⟨"2", "late"⟩]⟩⟩,
         ⟨⟨"1", "teacher"⟩, ⟨"2", "2025-04-01", [⟨"2", "present"⟩]⟩⟩,
         ⟨⟨"2", "student"⟩, ⟨"1", "2025-04-01", []⟩⟩]) :=
  ⟨Or.inl rfl, uniqueKeys_runPosts classes _ attendance (Or.inl rfl)⟩

/-- C2. Authorization of markAttendance: for every caller, roster, ledger and body,
`POST /api/attendance` answers 200 or 201 if and only if the caller's role is `teacher` and
the roster contains a class whose id is the body's classId and whose teacherId is the
caller's id; in every other case the status is 403 or 404 and the payload is a message, not
a session. -/
theorem postAttendance_success_iff_canMark (user : TokenUser) (classes : List ClassSection)
    (ledger : List AttendanceSession) (body : MarkBody) :
    (((postAttendance user classes ledger body).1.status = 200 ∨
        (postAttendance user classes ledger body).1.status = 201) ↔
      (user.role = "teacher" ∧
        ∃ cls ∈ classes, cls.id = body.classId ∧ cls.teacherId = user.id)) ∧
    (¬ (user.role = "teacher" ∧
        ∃ cls ∈ classes, cls.id = body.classId ∧ cls.teacherId = user.id) →
      ((postAttendance user classes ledger body).1.status = 403 ∨
        (postAttendance user classes ledger body).1.status = 404) ∧
      (∃ text, (postAttendance user classes ledger body).1.body = .message text) ∧
      ∀ s, (postAttendance user classes ledger body).1.body ≠ .session s) := by
  change (_ ↔ CanMark user classes body.classId) ∧ (¬ CanMark user classes body.classId → _)
  by_cases hc : CanMark user classes body.classId
  · refine ⟨?_, fun h => absurd hc h⟩
    cases he : ledger.find? (fun a => a.classId == body.classId && a.date == body.date) with
    | none =>
      rw [postAttendance_create user classes ledger body hc he]
      simp [hc]
    | some existing =>
      rw [postAttendance_update user classes ledger body hc existing he]
      simp [hc]
  · by_cases hr : user.role = "teacher"
    · rw [postAttendance_not_owner user classes ledger body hr hc]
      simp [hc]
    · rw [postAttendance_not_teacher user classes ledger body hr]
      simp [hc]

/-- C2, at concrete inputs: the seeded teacher is served on the seeded class, the seeded
student is denied with a message. -/
theorem postAttendance_success_iff_canMark_witness :
    ((postAttendance ⟨"1", "teacher"⟩ classes attendance ⟨"2", "2025-04-01", []⟩).1.status = 200
      ∨ (postAttendance ⟨"1", "teacher"⟩ classes attendance ⟨"2", "2025-04-01", []⟩).1.status
        = 201) ∧
    ((postAttendance ⟨"2", "student"⟩ classes attendance ⟨"1", "2025-04-01", []⟩).1.status = 403
      ∨ (postAttendance ⟨"2", "student"⟩ classes attendance ⟨"1", "2025-04-01", []⟩).1.status
        = 404) :=
  ⟨(postAttendance_success_iff_canMark ⟨"1", "teacher"⟩ classes attendance
      ⟨"2", "2025-04-01", []⟩).1.mpr (by decide),
   ((postAttendance_success_iff_canMark ⟨"2", "student"⟩ classes attendance
      ⟨"1", "2025-04-01", []⟩).2 (by decide)).1⟩

/-- C3. The authorization of `GET /api/attendance/:classId` at a caller whose role is neither
`teacher` nor `student`: with the payload `{id: '2', role: 'admin'}` and the seeded stores the
handler takes its `else` branch, finds id `2` among the students of class `1`, and answers 200
with the two sessions of that class, where the specified policy answers 403. The sibling
handler `GET /api/classes/student` answers 403 to the same caller. -/
theorem getAttendance_unknown_role_served :
    getAttendance ⟨"2", "admin"⟩ classes attendance "1" = ⟨200, .sessionList attendance⟩ ∧
      (getClassesStudent ⟨"2", "admin"⟩ classes).status = 403 := by
  decide

/-- C9 as stated fails: the caller `{id: '3', role: 'teacher'}` names class `1`, which exists
in the seeded roster and belongs to teacher `1`, and `POST /api/attendance` answers 404, not
403. -/
theorem postAttendance_non_owner_is_404 :
    (∃ cls ∈ classes, cls.id = "1" ∧ cls.teacherId ≠ "3") ∧
      (postAttendance ⟨"3", "teacher"⟩ classes attendance ⟨"1", "2025-04-01", []⟩).1
        = ⟨404, .message "Class not found or not authorized"⟩ ∧
      (postAttendance ⟨"3", "teacher"⟩ classes attendance ⟨"1", "2025-04-01", []⟩).1.status
        ≠ 403 := by
  decide

/-- C9, amended. For a caller with role `teacher`, `POST /api/attendance` answers 404 with the
message `Class not found or not authorized` exactly when the roster holds no class with the
requested id whose teacherId is the caller's id, whether or not a class with that id exists
under another teacher; 403 is the answer exactly when the caller's role is not `teacher`. -/
theorem postAttendance_failure_codes (user : TokenUser) (classes : List ClassSection)
    (ledger : List AttendanceSession) (body : MarkBody) :
    ((postAttendance user classes ledger body).1.status = 404 ↔
      (user.role = "teacher" ∧
        ∀ cls ∈ classes, cls.id = body.classId → cls.teacherId ≠ user.id)) ∧
    ((postAttendance user classes ledger body).1.status = 404 →
      (postAttendance user classes ledger body).1.body
        = .message "Class not found or not authorized") ∧
    ((postAttendance user classes ledger body).1.status = 403 ↔ user.role ≠ "teacher") := by
  have hcm : CanMark user classes body.classId ↔
      (user.role = "teacher" ∧
        ¬ ∀ cls ∈ classes, cls.id = body.classId → cls.teacherId ≠ user.id) := by
    unfold CanMark
    simp
  by_cases hr : user.role = "teacher"
  · by_cases hc : CanMark user classes body.classId
    · have hn := (hcm.mp hc).2
      cases he : ledger.find? (fun a => a.classId == body.classId && a.date == body.date) with
      | none =>
        rw [postAttendance_create user classes ledger body hc he]
        simp [hr, hn]
      | some existing =>
        rw [postAttendance_update user classes ledger body hc existing he]
        simp [hr, hn]
    · have hn : ∀ cls ∈ classes, cls.id = body.classId → cls.teacherId ≠ user.id := by
        by_contra hcon
        exact hc (hcm.mpr ⟨hr, hcon⟩)
      rw [postAttendance_not_owner user classes ledger body hr hc]
      simp only [hr, true_and, ne_eq, not_true_eq_false, iff_false]
      exact ⟨⟨fun _ => hn, fun _ => trivial⟩, fun _ => trivial, by decide⟩
  · rw [postAttendance_not_teacher user classes ledger body hr]
    simp [hr]

/-- C9 amended, at a concrete input: teacher `3` on the existing class `1` of teacher `1`. -/
theorem postAttendance_failure_codes_witness :
    (postAttendance ⟨"3", "teacher"⟩ classes attendance ⟨"1", "2025-04-01", []⟩).1.status
      = 404 :=
  (postAttendance_failure_codes ⟨"3", "teacher"⟩ classes attendance
    ⟨"1", "2025-04-01", []⟩).1.mpr (by decide)

/-- C10. Fail fast leaves the ledger untouched: for every ledger, roster, caller and body,
whenever `POST /api/attendance` answers 403 or 404, the ledger after the call is the ledger
before the call. -/
theorem postAttendance_denied_ledger_unchanged (user : TokenUser)
    (classes : List ClassSection) (ledger : List AttendanceSession) (body : MarkBody)
    (h : (postAttendance user classes ledger body).1.status = 403 ∨
      (postAttendance user classes ledger body).1.status = 404) :
    (postAttendance user classes ledger body).2 = ledger := by
  by_cases hr : user.role = "teacher"
  · by_cases hc : CanMark user classes body.classId
    · exfalso
      cases he : ledger.find? (fun a => a.classId == body.classId && a.date == body.date) with
      | none =>
        rw [postAttendance_create user classes ledger body hc he] at h
        simp at h
      | some existing =>
        rw [postAttendance_update user classes ledger body hc existing he] at h
        simp at h
    · rw [postAttendance_not_owner user classes ledger body hr hc]
  · rw [postAttendance_not_teacher user classes ledger body hr]

/-- C10, at concrete inputs: a student (403) and a teacher without the class (404) on the
seeded stores. -/
theorem postAttendance_denied_ledger_unchanged_witness :
    (postAttendance ⟨"2", "student"⟩ classes attendance ⟨"1", "2025-04-01", []⟩).1.status = 403
      ∧ (postAttendance ⟨"2", "student"⟩ classes attendance ⟨"1", "2025-04-01", []⟩).2
        = attendance
      ∧ (postAttendance ⟨"3", "teacher"⟩ classes attendance ⟨"1", "2025-04-01", []⟩).2
        = attendance :=
  ⟨by decide,
   postAttendance_denied_ledger_unchanged ⟨"2", "student"⟩ classes attendance
     ⟨"1", "2025-04-01", []⟩ (Or.inl (by decide)),
   postAttendance_denied_ledger_unchanged ⟨"3", "teacher"⟩ classes attendance
     ⟨"1", "2025-04-01", []⟩ (Or.inr (by decide))⟩

/-- C4. Idempotence of markAttendance: for every ledger with at most one session per
(classId, date) and every authorized call, serving the same request a second time leaves the
ledger of the first call unchanged; that ledger holds exactly one session under the key, whose
records are the submitted records; and the second call answers 200. -/
theorem postAttendance_idempotent (user : TokenUser) (classes : List ClassSection)
    (ledger : List AttendanceSession) (body : MarkBody) (hu : UniqueKeys ledger)
    (hc : CanMark user classes body.classId) :
    (postAttendance user classes (postAttendance user classes ledger body).2 body).2
        = (postAttendance user classes ledger body).2 ∧
      (∃ s, sessionsFor
          (postAttendance user classes (postAttendance user classes ledger body).2 body).2
          body.classId body.date = [s] ∧ s.records = body.records) ∧
      (postAttendance user classes (postAttendance user classes ledger body).2 body).1.status
        = 200 := by
  obtain ⟨s, hs, hrec⟩ := postAttendance_stores user classes ledger body hc
  have hu1 := uniqueKeys_postAttendance user classes ledger body hu
  have htwice := postAttendance_update user classes
    (postAttendance user classes ledger body).2 body hc s hs
  have hsame := assignRecords_of_find_same body.classId body.date body.records
    (postAttendance user classes ledger body).2 s hs hrec
  rw [hsame] at htwice
  rw [htwice]
  exact ⟨rfl, ⟨s, sessionsFor_of_find _ _ _ s hu1 hs, hrec⟩, rfl⟩

/-- C4, at a concrete input: the seeded teacher marks class `2` twice on the seeded ledger. -/
theorem postAttendance_idempotent_witness :
    UniqueKeys attendance ∧ CanMark ⟨"1", "teacher"⟩ classes "2" ∧
      (postAttendance ⟨"1", "teacher"⟩ classes
        (postAttendance ⟨"1", "teacher"⟩ classes attendance
          ⟨"2", "2025-04-01", [⟨"2", "late"⟩]⟩).2 ⟨"2", "2025-04-01", [⟨"2", "late"⟩]⟩).2
        = (postAttendance ⟨"1", "teacher"⟩ classes attendance
          ⟨"2", "2025-04-01", [⟨"2", "late"⟩]⟩).2 :=
  ⟨by decide, by decide,
   (postAttendance_idempotent ⟨"1", "teacher"⟩ classes attendance
     ⟨"2", "2025-04-01", [⟨"2", "late"⟩]⟩ (by decide) (by decide)).1⟩

/-- C5. Read-after-write round trip: for every ledger with at most one session per
(classId, date), after a successful markAttendance by the owning teacher,
`GET /api/attendance/:classId` called by that teacher, or by a caller with role `student`
whose id is among the students of a class with that id, answers 200 with a list in which
exactly one session has the submitted date, and the records of that session are exactly the
submitted records. -/
theorem getAttendance_after_postAttendance (teacher viewer : TokenUser)
    (classes : List ClassSection) (ledger : List AttendanceSession) (body : MarkBody)
    (hu : UniqueKeys ledger) (hc : CanMark teacher classes body.classId)
    (hv : viewer = teacher ∨ (viewer.role = "student" ∧
      ∃ cls ∈ classes, cls.id = body.classId ∧ viewer.id ∈ cls.students)) :
    ∃ ss s,
      getAttendance viewer classes (postAttendance teacher classes ledger body).2 body.classId
        = ⟨200, .sessionList ss⟩ ∧
      ss.filter (fun a => a.date == body.date) = [s] ∧ s.records = body.records := by
  obtain ⟨s, hs, hrec⟩ := postAttendance_stores teacher classes ledger body hc
  have hu1 := uniqueKeys_postAttendance teacher classes ledger body hu
  have hone := sessionsFor_of_find _ _ _ s hu1 hs
  refine ⟨(postAttendance teacher classes ledger body).2.filter
    (fun a => a.classId == body.classId), s, ?_, ?_, hrec⟩
  · rcases hv with hv | ⟨hrole, cls, hmem, hid, hin⟩
    · subst hv
      obtain ⟨hr, cls, hmem, hid, ht⟩ := hc
      have hany : classes.any (fun cls => cls.id == body.classId && cls.teacherId == viewer.id)
          = true := by
        rw [List.any_eq_true]
        exact ⟨cls, hmem, by simp [hid, ht]⟩
      simp [getAttendance, hr, hany]
    · have hany : classes.any
          (fun cls => cls.id == body.classId && cls.students.contains viewer.id) = true := by
        rw [List.any_eq_true]
        exact ⟨cls, hmem, by simp [hid, hin]⟩
      have hnt : (viewer.role == "teacher") = false := by rw [hrole]; decide
      simp only [getAttendance, hnt, hany]
      rfl
  · rw [List.filter_filter]
    unfold sessionsFor at hone
    rw [← hone]
    apply List.filter_congr
    intro a _
    exact Bool.and_comm _ _

/-- C5, at a concrete input: the seeded teacher overwrites the session of class `1` for
2025-04-01 and the seeded student reads the class. -/
theorem getAttendance_after_postAttendance_witness :
    ∃ ss s,
      getAttendance ⟨"2", "student"⟩ classes
          (postAttendance ⟨"1", "teacher"⟩ classes attendance
            ⟨"1", "2025-04-01", [⟨"2", "late"⟩]⟩).2 "1"
        = ⟨200, .sessionList ss⟩ ∧
      ss.filter (fun a => a.date == "2025-04-01") = [s] ∧ s.records = [⟨"2", "late"⟩] :=
  getAttendance_after_postAttendance ⟨"1", "teacher"⟩ ⟨"2", "student"⟩ classes attendance
    ⟨"1", "2025-04-01", [⟨"2", "late"⟩]⟩ (by decide) (by decide) (Or.inr (by decide))

/-- C6. Wholesale overwrite on update: when an authorized markAttendance finds a session for
(classId, date), the ledger splits around the first such session as `pre ++ existing :: post`
with no session for the key in `pre`; the response is 200 with that session carrying the
supplied records; and the ledger afterwards is `pre`, then the session with the same id,
classId and date and exactly the supplied records, then `post`: same length, same order, every
other session unchanged. -/
theorem postAttendance_overwrites (user : TokenUser) (classes : List ClassSection)
    (ledger : List AttendanceSession) (body : MarkBody)
    (hc : CanMark user classes body.classId)
    (hk : HasKey ledger body.classId body.date) :
    ∃ pre existing post,
      ledger = pre ++ existing :: post ∧
      (∀ a ∈ pre, ¬ (a.classId = body.classId ∧ a.date = body.date)) ∧
      existing.classId = body.classId ∧ existing.date = body.date ∧
      postAttendance user classes ledger body =
        (⟨200, .session ⟨existing.id, existing.classId, existing.date, body.records⟩⟩,
          pre ++ ⟨existing.id, existing.classId, existing.date, body.records⟩ :: post) ∧
      (postAttendance user classes ledger body).2.length = ledger.length := by
  rw [hasKey_iff_find] at hk
  obtain ⟨existing, he⟩ := Option.isSome_iff_exists.mp hk
  obtain ⟨pre, post, hl, hpre, h1, h2, hassign⟩ :=
    assignRecords_split body.classId body.date body.records ledger existing he
  refine ⟨pre, existing, post, hl, hpre, h1, h2, ?_, ?_⟩
  · rw [postAttendance_update user classes ledger body hc existing he, hassign]
  · rw [postAttendance_update user classes ledger body hc existing he]
    exact assignRecords_length _ _ _ _

/-- C6, at a concrete input: the seeded teacher re-marks class `1` for 2025-04-03 with an
empty record list; the second seeded session loses its record and the first is untouched. -/
theorem postAttendance_overwrites_witness :
    ∃ pre existing post,
      attendance = pre ++ existing :: post ∧
      (∀ a ∈ pre, ¬ (a.classId = "1" ∧ a.date = "2025-04-03")) ∧
      existing.classId = "1" ∧ existing.date = "2025-04-03" ∧
      postAttendance ⟨"1", "teacher"⟩ classes attendance ⟨"1", "2025-04-03", []⟩ =
        (⟨200, .session ⟨existing.id, existing.classId, existing.date, []⟩⟩,
          pre ++ ⟨existing.id, existing.classId, existing.date, []⟩ :: post) ∧
      (postAttendance ⟨"1", "teacher"⟩ classes attendance ⟨"1", "2025-04-03", []⟩).2.length
        = attendance.length :=
  postAttendance_overwrites ⟨"1", "teacher"⟩ classes attendance ⟨"1", "2025-04-03", []⟩
    (by decide) (by decide)

/-- C7. Create on first mark: when an authorized markAttendance finds no session with the
given classId and date, the response is 201 with the new session, whose id is the decimal
representation of the ledger length plus one and whose classId, date and records are the
supplied ones, and the ledger afterwards is the previous ledger followed by that one session;
conversely, for any caller, status 201 is returned only when no session for the key existed
before the call. -/
theorem postAttendance_creates (user : TokenUser) (classes : List ClassSection)
    (ledger : List AttendanceSession) (body : MarkBody) :
    (CanMark user classes body.classId → ¬ HasKey ledger body.classId body.date →
      postAttendance user classes ledger body =
        (⟨201, .session
            ⟨Nat.repr (ledger.length + 1), body.classId, body.date, body.records⟩⟩,
          ledger ++ [⟨Nat.repr (ledger.length + 1), body.classId, body.date, body.records⟩])) ∧
    ((postAttendance user classes ledger body).1.status = 201 →
      ¬ HasKey ledger body.classId body.date) := by
  constructor
  · intro hc hk
    rw [hasKey_iff_find] at hk
    have he : ledger.find? (fun a => a.classId == body.classId && a.date == body.date)
        = none := by
      cases h : ledger.find? (fun a => a.classId == body.classId && a.date == body.date)
      · rfl
      · simp [h] at hk
    exact postAttendance_create user classes ledger body hc he
  · intro hst hk
    rw [hasKey_iff_find] at hk
    obtain ⟨existing, he⟩ := Option.isSome_iff_exists.mp hk
    by_cases hr : user.role = "teacher"
    · by_cases hc : CanMark user classes body.classId
      · rw [postAttendance_update user classes ledger body hc existing he] at hst
        simp at hst
      · rw [postAttendance_not_owner user classes ledger body hr hc] at hst
        simp at hst
    · rw [postAttendance_not_teacher user classes ledger body hr] at hst
      simp at hst

/-- C7, at a concrete input: the seeded teacher marks class `2` for the first time; the new
session gets id `3` and is appended to the two seeded sessions. -/
theorem postAttendance_creates_witness :
    postAttendance ⟨"1", "teacher"⟩ classes attendance ⟨"2", "2025-04-01", [⟨"2", "late"⟩]⟩ =
      (⟨201, .session ⟨"3", "2", "2025-04-01", [⟨"2", "late"⟩]⟩⟩,
        attendance ++ [⟨"3", "2", "2025-04-01", [⟨"2", "late"⟩]⟩]) :=
  (postAttendance_creates ⟨"1", "teacher"⟩ classes attendance
    ⟨"2", "2025-04-01", [⟨"2", "late"⟩]⟩).1 (by decide) (by decide)

/-- C8. Session ids stay unique: in every ledger reached from the seeded one by a sequence of
`POST /api/attendance` requests (any roster, callers and bodies), the session ids are pairwise
distinct, and the id the next creation would assign, the decimal representation of the ledger
length plus one, differs from the id of every stored session. -/
theorem uniqueIds_runPosts (classes : List ClassSection) (reqs : List MarkRequest) :
    UniqueIds (runPosts classes attendance reqs) ∧
      ∀ a ∈ runPosts classes attendance reqs,
        a.id ≠ Nat.repr ((runPosts classes attendance reqs).length + 1) :=
  have h := idsByPosition_runPosts classes reqs attendance idsByPosition_attendance
  ⟨uniqueIds_of_idsByPosition _ h, fresh_id_of_idsByPosition _ h⟩

/-- C11. Result of getAttendanceForClass: for every store and every authorized caller (the
owning teacher of a class with the requested id, or a student enrolled in one),
`GET /api/attendance/:classId` answers 200 with the ledger filtered by the requested classId
and leaves users, roster and ledger as they were; the returned list is a sublist of the ledger
(ledger order, not sorted), its members are exactly the ledger's sessions with that classId,
and each of them occurs as often in the answer as in the ledger. -/
theorem getAttendance_returns_class_sessions (user : TokenUser) (store : Store)
    (classId : String)
    (hv : (user.role = "teacher" ∧
        ∃ cls ∈ store.classes, cls.id = classId ∧ cls.teacherId = user.id) ∨
      (user.role = "student" ∧
        ∃ cls ∈ store.classes, cls.id = classId ∧ user.id ∈ cls.students)) :
    handleProtected user store (.attendanceForClass classId) =
        (⟨200, .sessionList (store.attendance.filter (fun a => a.classId == classId))⟩, store) ∧
      (store.attendance.filter (fun a => a.classId == classId)).Sublist store.attendance ∧
      ∀ a,
        (a ∈ store.attendance.filter (fun a => a.classId == classId) ↔
          a ∈ store.attendance ∧ a.classId = classId) ∧
        (a.classId = classId →
          (store.attendance.filter (fun a => a.classId == classId)).count a
            = store.attendance.count a) := by
  refine ⟨?_, List.filter_sublist _, fun a => ⟨?_, ?_⟩⟩
  · simp only [handleProtected]
    rw [getAttendance_allowed user store.classes store.attendance classId hv]
  · simp [List.mem_filter]
  · intro ha
    exact List.count_filter (by simp [ha])

/-- C11, at a concrete input: the seeded student reads class `1` on the seeded stores and gets
the two seeded sessions in ledger order; the stores are unchanged. -/
theorem getAttendance_returns_class_sessions_witness :
    handleProtected ⟨"2", "student"⟩ ⟨users, classes, attendance⟩ (.attendanceForClass "1") =
      (⟨200, .sessionList attendance⟩, ⟨users, classes, attendance⟩) :=
  (getAttendance_returns_class_sessions ⟨"2", "student"⟩ ⟨users, classes, attendance⟩ "1"
    (Or.inr (by decide))).1

/-- C12. Visibility: when the ledger holds no session of the requested class,
`GET /api/attendance/:classId` called by the owning teacher or by an enrolled student answers
200 with the empty list; when the caller is a teacher who owns no class with that id, or a
student enrolled in no class with that id, or no class with that id exists, it answers 403
with a message and no sessions. -/
theorem getAttendance_visibility (user : TokenUser) (classes : List ClassSection)
    (ledger : List AttendanceSession) (classId : String) :
    (((user.role = "teacher" ∧
          ∃ cls ∈ classes, cls.id = classId ∧ cls.teacherId = user.id) ∨
        (user.role = "student" ∧
          ∃ cls ∈ classes, cls.id = classId ∧ user.id ∈ cls.students)) →
      (∀ a ∈ ledger, a.classId ≠ classId) →
      getAttendance user classes ledger classId = ⟨200, .sessionList []⟩) ∧
    (((user.role = "teacher" ∧
          ∀ cls ∈ classes, cls.id = classId → cls.teacherId ≠ user.id) ∨
        (user.role = "student" ∧
          ∀ cls ∈ classes, cls.id = classId → user.id ∉ cls.students) ∨
        (∀ cls ∈ classes, cls.id ≠ classId)) →
      (getAttendance user classes ledger classId).status = 403 ∧
      (∃ text, (getAttendance user classes ledger classId).body = .message text) ∧
      ∀ ss, (getAttendance user classes ledger classId).body ≠ .sessionList ss) := by
  constructor
  · intro hv hempty
    rw [getAttendance_allowed user classes ledger classId hv]
    have hnil : ledger.filter (fun a => a.classId == classId) = [] := by
      rw [List.filter_eq_nil_iff]
      intro a ha
      simpa using hempty a ha
    rw [hnil]
  · intro hdeny
    by_cases hr : user.role = "teacher"
    · have hno : ¬ classes.any (fun cls => cls.id == classId && cls.teacherId == user.id)
          = true := by
        rw [any_owner_iff]
        rintro ⟨cls, hmem, hid, ht⟩
        rcases hdeny with ⟨_, h⟩ | ⟨hs, _⟩ | h
        · exact h cls hmem hid ht
        · rw [hr] at hs; exact absurd hs (by decide)
        · exact h cls hmem hid
      rw [getAttendance_teacher user classes ledger classId hr, if_neg hno]
      exact ⟨rfl, ⟨_, rfl⟩, fun ss h => by cases h⟩
    · have hno : ¬ classes.any
          (fun cls => cls.id == classId && cls.students.contains user.id) = true := by
        rw [any_enrolled_iff]
        rintro ⟨cls, hmem, hid, hin⟩
        rcases hdeny with ⟨ht, _⟩ | ⟨_, h⟩ | h
        · exact hr ht
        · exact h cls hmem hid hin
        · exact h cls hmem hid
      rw [getAttendance_not_teacher user classes ledger classId hr, if_neg hno]
      exact ⟨rfl, ⟨_, rfl⟩, fun ss h => by cases h⟩

/-- C12, at concrete inputs: the seeded student reads the seeded class `2`, which has no
session, and gets the empty list; the same student asking for the absent class `9` gets 403. -/
theorem getAttendance_visibility_witness :
    getAttendance ⟨"2", "student"⟩ classes attendance "2" = ⟨200, .sessionList []⟩ ∧
      (getAttendance ⟨"2", "student"⟩ classes attendance "9").status = 403 :=
  ⟨(getAttendance_visibility ⟨"2", "student"⟩ classes attendance "2").1
      (Or.inr (by decide)) (by decide),
   ((getAttendance_visibility ⟨"2", "student"⟩ classes attendance "9").2
      (Or.inr (Or.inr (by decide)))).1⟩

/-- C13. Role-exclusive class listing: `GET /api/classes/teacher` answers 403 whenever the
caller's role is not `teacher`, whatever the roster holds, and otherwise answers 200 with the
roster filtered to the classes whose teacherId is the caller's id, in roster order;
`GET /api/classes/student` answers 403 whenever the role is not `student`, also when the
caller's id is among some class's students, and otherwise answers 200 with the roster filtered
to the classes whose students contain the caller's id, in roster order. -/
theorem class_listing_role_exclusive (user : TokenUser) (classes : List ClassSection) :
    (user.role ≠ "teacher" → getClassesTeacher user classes = ⟨403, .message "Forbidden"⟩) ∧
    (user.role = "teacher" →
      ∃ cs, getClassesTeacher user classes = ⟨200, .classList cs⟩ ∧ cs.Sublist classes ∧
        ∀ cls, cls ∈ cs ↔ cls ∈ classes ∧ cls.teacherId = user.id) ∧
    (user.role ≠ "student" → getClassesStudent user classes = ⟨403, .message "Forbidden"⟩) ∧
    (user.role = "student" →
      ∃ cs, getClassesStudent user classes = ⟨200, .classList cs⟩ ∧ cs.Sublist classes ∧
        ∀ cls, cls ∈ cs ↔ cls ∈ classes ∧ user.id ∈ cls.students) := by
  refine ⟨?_, ?_, ?_, ?_⟩
  · intro hr
    simp [getClassesTeacher, hr]
  · intro hr
    refine ⟨classes.filter (fun cls => cls.teacherId == user.id), ?_, List.filter_sublist _, ?_⟩
    · simp [getClassesTeacher, hr]
    · intro cls
      simp [List.mem_filter]
  · intro hr
    simp [getClassesStudent, hr]
  · intro hr
    refine ⟨classes.filter (fun cls => cls.students.contains user.id), ?_,
      List.filter_sublist _, ?_⟩
    · simp [getClassesStudent, hr]
    · intro cls
      simp [List.mem_filter]

/-- C13, at concrete inputs: on the seeded roster the seeded student, whose id is in the
students of both classes, is refused by the teacher listing, and a caller with id `2` and role
`teacher` is refused by the student listing. -/
theorem class_listing_role_exclusive_witness :
    getClassesTeacher ⟨"2", "student"⟩ classes = ⟨403, .message "Forbidden"⟩ ∧
      getClassesStudent ⟨"2", "teacher"⟩ classes = ⟨403, .message "Forbidden"⟩ :=
  ⟨(class_listing_role_exclusive ⟨"2", "student"⟩ classes).1 (by decide),
   (class_listing_role_exclusive ⟨"2", "teacher"⟩ classes).2.2.1 (by decide)⟩

/-- C14. Login at a request without a secret: on the seeded users, with any hash comparison
that rejects an absent secret as `bcrypt.compare` does, the body with the stored email
`teacher@example.com` and no password is answered by the `catch` with 500 `Server error`,
and the same body with the unknown email `nobody@example.com` is answered with 401
`Invalid email or password`: the two failed logins differ with the existence of the email,
where the claim says no failed login response depends on it. -/
theorem login_missing_secret_reveals_email (compare : Option String → String → Option Bool)
    (sign : TokenUser → String) (hreject : ∀ hash, compare none hash = none) :
    postAuthLogin compare sign users ⟨some "teacher@example.com", none⟩
        = ⟨500, .message "Server error"⟩ ∧
      postAuthLogin compare sign users ⟨some "nobody@example.com", none⟩
        = ⟨401, .message "Invalid email or password"⟩ := by
  constructor
  · rw [postAuthLogin_found compare sign users ⟨some "teacher@example.com", none⟩
      ⟨"1", "John Doe", "teacher@example.com",
        "$2a$10$XH9CdcQZkV/Tpr0SFnNR5eGQPQeARSgF9G4cOsXz4hoZkVnJM6Uaa", "teacher"⟩
      (by decide)]
    simp only [hreject]
  · exact postAuthLogin_not_found compare sign users ⟨some "nobody@example.com", none⟩
      (by decide)

/-- C14, at a concrete comparison: one that rejects an absent secret and accepts only the
string `secret`. -/
theorem login_missing_secret_reveals_email_witness :
    postAuthLogin (fun secret _ => secret.map (fun text => text == "secret"))
        (fun payload => payload.id) users ⟨some "teacher@example.com", none⟩
      = ⟨500, .message "Server error"⟩ ∧
    postAuthLogin (fun secret _ => secret.map (fun text => text == "secret"))
        (fun payload => payload.id) users ⟨some "nobody@example.com", none⟩
      = ⟨401, .message "Invalid email or password"⟩ :=
  login_missing_secret_reveals_email (fun secret _ => secret.map (fun text => text == "secret"))
    (fun payload => payload.id) (fun _ => rfl)

/-- C15 as stated fails on its second half: on the seeded users, with a comparison that
rejects an absent secret and accepts only the string `secret`, the pair of the stored email
`teacher@example.com` and no secret does not verify, and login answers 500 `Server error`,
not 401. -/
theorem login_missing_secret_is_500 :
    (∃ u ∈ users, some u.email = some "teacher@example.com") ∧
    (¬ ∃ u ∈ users, some u.email = some "teacher@example.com" ∧
      (fun (secret : Option String) (_ : String) =>
        secret.map (fun text => text == "secret")) none u.password = some true) ∧
    postAuthLogin (fun secret _ => secret.map (fun text => text == "secret"))
        (fun payload => payload.id) users ⟨some "teacher@example.com", none⟩
      = ⟨500, .message "Server error"⟩ ∧
    (postAuthLogin (fun secret _ => secret.map (fun text => text == "secret"))
        (fun payload => payload.id) users ⟨some "teacher@example.com", none⟩).status
      ≠ 401 := by
  decide

/-- C15, amended. With hash comparison, signing and decoding arbitrary functions and a users
store with pairwise distinct emails: when the email is that of a stored user and the
comparison of the secret with that user's hash resolves to true, login answers 200 with the
token signed for that user's id and role, whose decoded payload is that id and role as soon
as decoding returns what was signed, and with a user object holding that user's id, name,
email and role; for every other (email, secret) the response is not a 200 and carries no
token, and it is 401 `Invalid email or password` whenever the comparison with the hash of the
user found under that email resolves (in particular when no stored user has the email). -/
theorem login_binds_identity (compare : Option String → String → Option Bool)
    (sign : TokenUser → String) (decode : String → Option TokenUser) (users : List User)
    (body : LoginBody) (hnodup : (users.map (fun v => v.email)).Nodup) :
    (∀ u ∈ users, some u.email = body.email →
      compare body.password u.password = some true →
      decode (sign ⟨u.id, u.role⟩) = some ⟨u.id, u.role⟩ →
      ∃ token,
        postAuthLogin compare sign users body
          = ⟨200, .login token ⟨u.id, u.name, u.email, u.role⟩⟩ ∧
        token = sign ⟨u.id, u.role⟩ ∧ decode token = some ⟨u.id, u.role⟩) ∧
    ((¬ ∃ u ∈ users, some u.email = body.email ∧
        compare body.password u.password = some true) →
      (postAuthLogin compare sign users body).status ≠ 200 ∧
      (∀ token pu, (postAuthLogin compare sign users body).body ≠ .login token pu) ∧
      ((∀ u ∈ users, some u.email = body.email →
          compare body.password u.password ≠ none) →
        postAuthLogin compare sign users body
          = ⟨401, .message "Invalid email or password"⟩)) := by
  constructor
  · intro u hu hemail hok hdec
    refine ⟨sign ⟨u.id, u.role⟩, ?_, rfl, hdec⟩
    rw [postAuthLogin_found compare sign users body u
      (find_email_of_nodup users body.email u hnodup hu hemail), hok]
    rfl
  · intro hno
    cases hf : users.find? (fun v => some v.email == body.email) with
    | none =>
      rw [postAuthLogin_not_found compare sign users body hf]
      refine ⟨by decide, ?_, fun _ => rfl⟩
      intro token pu h
      cases h
    | some v =>
      have hmem : v ∈ users := List.mem_of_find?_eq_some hf
      have hemail : some v.email = body.email := by
        have hp := List.find?_some hf
        simpa using hp
      rw [postAuthLogin_found compare sign users body v hf]
      cases hc : compare body.password v.password with
      | none =>
        refine ⟨by simp, ?_, fun hres => absurd hc (hres v hmem hemail)⟩
        intro token pu h
        cases h
      | some isMatch =>
        cases isMatch with
        | false =>
          refine ⟨by simp, ?_, fun _ => rfl⟩
          intro token pu h
          cases h
        | true => exact absurd ⟨v, hmem, hemail, hc⟩ hno

/-- C15 amended, at a concrete input: on the seeded users, with a comparison that rejects an
absent secret and accepts only the string `secret`, a signer that joins id and role and a
decoder that reads the teacher's token back, the teacher's login answers 200 with the
teacher's identity. -/
theorem login_binds_identity_witness :
    ∃ token,
      postAuthLogin (fun secret _ => secret.map (fun text => text == "secret"))
          (fun payload => payload.id ++ ":" ++ payload.role) users
          ⟨some "teacher@example.com", some "secret"⟩
        = ⟨200, .login token ⟨"1", "John Doe", "teacher@example.com", "teacher"⟩⟩ ∧
      token = "1:teacher" ∧
      (fun t => if t = "1:teacher" then some (⟨"1", "teacher"⟩ : TokenUser) else none) token
        = some ⟨"1", "teacher"⟩ :=
  (login_binds_identity (fun secret _ => secret.map (fun text => text == "secret"))
    (fun payload => payload.id ++ ":" ++ payload.role)
    (fun t => if t = "1:teacher" then some ⟨"1", "teacher"⟩ else none) users
    ⟨some "teacher@example.com", some "secret"⟩ (by decide)).1
    ⟨"1", "John Doe", "teacher@example.com",
      "$2a$10$XH9CdcQZkV/Tpr0SFnNR5eGQPQeARSgF9G4cOsXz4hoZkVnJM6Uaa", "teacher"⟩
    (by decide) (by decide) (by decide) (by decide)

/-- C16. Token validator outcomes: with signature verification an arbitrary function, when the
Authorization header is absent or its second space-separated part is missing or empty the
validator rejects with 401 `Unauthorized`; when that part is a non-empty token and
verification fails it rejects with 403 `Forbidden`; in both cases the route answers with that
rejection and the stores are untouched, the handler not having run; and when verification
succeeds the handler runs with exactly the verified payload as caller. -/
theorem authenticateToken_outcomes (verify : String → Option TokenUser)
    (authHeader : Option String) (store : Store) (req : ProtectedRequest) :
    ((authHeader = none ∨
        ∃ h, authHeader = some h ∧
          ((splitSpace h)[1]? = none ∨ (splitSpace h)[1]? = some "")) →
      authenticateToken verify authHeader = .error ⟨401, .message "Unauthorized"⟩ ∧
      serveProtected verify store authHeader req = (⟨401, .message "Unauthorized"⟩, store)) ∧
    (∀ h t, authHeader = some h → (splitSpace h)[1]? = some t → t ≠ "" →
      (verify t = none →
        authenticateToken verify authHeader = .error ⟨403, .message "Forbidden"⟩ ∧
        serveProtected verify store authHeader req = (⟨403, .message "Forbidden"⟩, store)) ∧
      (∀ user, verify t = some user →
        authenticateToken verify authHeader = .ok user ∧
        serveProtected verify store authHeader req = handleProtected user store req)) := by
  constructor
  · intro hno
    have hrej : authenticateToken verify authHeader
        = .error ⟨401, .message "Unauthorized"⟩ := by
      rcases hno with hnone | ⟨h, hsome, hpart⟩
      · subst hnone
        rfl
      · subst hsome
        by_cases he : h = ""
        · simp [authenticateToken, he]
        · rcases hpart with hp | hp <;> simp [authenticateToken, he, hp]
    exact ⟨hrej, by simp [serveProtected, hrej]⟩
  · intro h t hsome hpart hne
    subst hsome
    have he : h ≠ "" := by
      intro he
      rw [he, splitSpace_empty] at hpart
      cases hpart
    constructor
    · intro hv
      have hrej : authenticateToken verify (some h)
          = .error ⟨403, .message "Forbidden"⟩ := by
        simp [authenticateToken, he, hpart, hne, hv]
      exact ⟨hrej, by simp [serveProtected, hrej]⟩
    · intro user hv
      have hok : authenticateToken verify (some h) = .ok user := by
        simp [authenticateToken, he, hpart, hne, hv]
      exact ⟨hok, by simp [serveProtected, hok]⟩

/-- C16, at concrete inputs: with a verifier that accepts only the token `abc`, the header
`Bearer` is rejected with 401, `Bearer abd` with 403, and `Bearer abc` runs the handler with
the verified payload. -/
theorem authenticateToken_outcomes_witness :
    serveProtected (fun t => if t = "abc" then some ⟨"1", "teacher"⟩ else none)
        ⟨users, classes, attendance⟩ (some "Bearer") .classesTeacher
      = (⟨401, .message "Unauthorized"⟩, ⟨users, classes, attendance⟩) ∧
    serveProtected (fun t => if t = "abc" then some ⟨"1", "teacher"⟩ else none)
        ⟨users, classes, attendance⟩ (some "Bearer abd") .classesTeacher
      = (⟨403, .message "Forbidden"⟩, ⟨users, classes, attendance⟩) ∧
    serveProtected (fun t => if t = "abc" then some ⟨"1", "teacher"⟩ else none)
        ⟨users, classes, attendance⟩ (some "Bearer abc") .classesTeacher
      = handleProtected ⟨"1", "teacher"⟩ ⟨users, classes, attendance⟩ .classesTeacher :=
  ⟨((authenticateToken_outcomes _ (some "Bearer") _ _).1
      (Or.inr ⟨"Bearer", rfl, Or.inl (by decide)⟩)).2,
   (((authenticateToken_outcomes _ (some "Bearer abd") _ _).2 "Bearer abd" "abd" rfl
      (by decide) (by decide)).1 (by decide)).2,
   (((authenticateToken_outcomes _ (some "Bearer abc") _ _).2 "Bearer abc" "abc" rfl
      (by decide) (by decide)).2 ⟨"1", "teacher"⟩ (by decide)).2⟩

/-- C17 as stated fails on its first step: the seeded ledger already holds session `1` for
class `1` on 2025-04-01, so the teacher's first mark of that date is an update answered with
200, not a creation answered with 201. -/
theorem scenario_first_mark_is_update :
    (postAttendance ⟨"1", "teacher"⟩ classes attendance
        ⟨"1", "2025-04-01", [⟨"2", "present"⟩]⟩).1
      = ⟨200, .session ⟨"1", "1", "2025-04-01", [⟨"2", "present"⟩]⟩⟩ ∧
    (postAttendance ⟨"1", "teacher"⟩ classes attendance
        ⟨"1", "2025-04-01", [⟨"2", "present"⟩]⟩).1.status ≠ 201 := by
  decide

/-- C17, amended. On the seeded stores, with T = user `1` (teacher), C1 = class `1` and
S = user `2` (student): T marking C1 on 2025-04-01 with [{S, present}] answers 200 with the
seeded session `1` holding that one record; T then marking the same date with [{S, absent}]
answers 200; the attendance of C1 read by S is then the two sessions of the class, of which
exactly one is dated 2025-04-01, and its single record has status `absent`; S attempting to
mark answers 403 on any ledger; and a teacher with any id other than `1` reading C1 answers
403 on any ledger. -/
theorem scenario_on_seeded_state :
    (postAttendance ⟨"1", "teacher"⟩ classes attendance
        ⟨"1", "2025-04-01", [⟨"2", "present"⟩]⟩).1
      = ⟨200, .session ⟨"1", "1", "2025-04-01", [⟨"2", "present"⟩]⟩⟩ ∧
    (postAttendance ⟨"1", "teacher"⟩ classes
        (postAttendance ⟨"1", "teacher"⟩ classes attendance
          ⟨"1", "2025-04-01", [⟨"2", "present"⟩]⟩).2
        ⟨"1", "2025-04-01", [⟨"2", "absent"⟩]⟩).1.status = 200 ∧
    getAttendance ⟨"2", "student"⟩ classes
        (postAttendance ⟨"1", "teacher"⟩ classes
          (postAttendance ⟨"1", "teacher"⟩ classes attendance
            ⟨"1", "2025-04-01", [⟨"2", "present"⟩]⟩).2
          ⟨"1", "2025-04-01", [⟨"2", "absent"⟩]⟩).2 "1"
      = ⟨200, .sessionList
          [⟨"1", "1", "2025-04-01", [⟨"2", "absent"⟩]⟩,
           ⟨"2", "1", "2025-04-03", [⟨"2", "absent"⟩]⟩]⟩ ∧
    ([⟨"1", "1", "2025-04-01", [⟨"2", "absent"⟩]⟩,
        ⟨"2", "1", "2025-04-03", [⟨"2", "absent"⟩]⟩] : List AttendanceSession).filter
        (fun a => a.date == "2025-04-01")
      = [⟨"1", "1", "2025-04-01", [⟨"2", "absent"⟩]⟩] ∧
    (∀ ledger body, (postAttendance ⟨"2", "student"⟩ classes ledger body).1.status = 403) ∧
    (∀ t2 ledger, t2 ≠ "1" →
      (getAttendance ⟨t2, "teacher"⟩ classes ledger "1").status = 403) := by
  refine ⟨by decide, by decide, by decide, by decide, ?_, ?_⟩
  · intro ledger body
    rw [postAttendance_not_teacher ⟨"2", "student"⟩ classes ledger body (by decide)]
  · intro t2 ledger hne
    have hno : ¬ classes.any (fun cls => cls.id == "1" && cls.teacherId == t2) = true := by
      rw [any_owner_iff ⟨t2, "teacher"⟩ classes "1"]
      rintro ⟨cls, hmem, _, ht⟩
      simp only [classes, List.mem_cons, List.mem_singleton, List.not_mem_nil, or_false]
        at hmem
      rcases hmem with h | h <;> subst h <;> exact hne ht.symm
    rw [getAttendance_teacher ⟨t2, "teacher"⟩ classes ledger "1" rfl, if_neg hno]

/-- C17 amended, at a concrete input: teacher `3` reading class `1` on the seeded ledger. -/
theorem scenario_on_seeded_state_witness :
    (getAttendance ⟨"3", "teacher"⟩ classes attendance "1").status = 403 :=
  scenario_on_seeded_state.2.2.2.2.2 "3" attendance (by decide)

/-- C18. Date keys are compared as raw strings: for every authorized teacher and class and
every two dates that differ as strings, marking the first date leaves the sessions stored for
the class under the second date exactly as they were, and the session it returns is dated the
first date; and on a ledger that holds neither key, marking the first and then the second date
answers 201 both times and appends two separate sessions, one per date. -/
theorem postAttendance_dates_are_raw_strings (user : TokenUser) (classes : List ClassSection)
    (ledger : List AttendanceSession) (classId d1 d2 : String)
    (r1 r2 : List AttendanceRecord) (hc : CanMark user classes classId) (hne : d1 ≠ d2) :
    sessionsFor (postAttendance user classes ledger ⟨classId, d1, r1⟩).2 classId d2
        = sessionsFor ledger classId d2 ∧
      (∃ s, (postAttendance user classes ledger ⟨classId, d1, r1⟩).1.body = .session s ∧
        s.date = d1 ∧ s.date ≠ d2) ∧
      (¬ HasKey ledger classId d1 → ¬ HasKey ledger classId d2 →
        (postAttendance user classes ledger ⟨classId, d1, r1⟩).1.status = 201 ∧
        (postAttendance user classes
          (postAttendance user classes ledger ⟨classId, d1, r1⟩).2
          ⟨classId, d2, r2⟩).1.status = 201 ∧
        (postAttendance user classes
          (postAttendance user classes ledger ⟨classId, d1, r1⟩).2 ⟨classId, d2, r2⟩).2
          = ledger ++ [⟨Nat.repr (ledger.length + 1), classId, d1, r1⟩,
              ⟨Nat.repr (ledger.length + 2), classId, d2, r2⟩]) := by
  refine ⟨?_, ?_, ?_⟩
  · cases he : ledger.find? (fun a => a.classId == classId && a.date == d1) with
    | none =>
      rw [postAttendance_create user classes ledger ⟨classId, d1, r1⟩ hc he]
      exact sessionsFor_append_other ledger _ classId d2 hne
    | some existing =>
      rw [postAttendance_update user classes ledger ⟨classId, d1, r1⟩ hc existing he]
      exact sessionsFor_assignRecords_other classId classId d1 d2 r1 ledger hne
  · cases he : ledger.find? (fun a => a.classId == classId && a.date == d1) with
    | none =>
      rw [postAttendance_create user classes ledger ⟨classId, d1, r1⟩ hc he]
      exact ⟨_, rfl, rfl, hne⟩
    | some existing =>
      rw [postAttendance_update user classes ledger ⟨classId, d1, r1⟩ hc existing he]
      have hp := List.find?_some he
      have hk : existing.classId = classId ∧ existing.date = d1 := by simpa using hp
      exact ⟨_, rfl, hk.2, by rw [hk.2]; exact hne⟩
  · intro h1 h2
    have he1 := find_none_of_not_hasKey ledger classId d1 h1
    have he2 := find_none_of_not_hasKey ledger classId d2 h2
    rw [postAttendance_create user classes ledger ⟨classId, d1, r1⟩ hc he1]
    have he2' := find_append_other ledger
      ⟨Nat.repr (ledger.length + 1), classId, d1, r1⟩ classId d2 hne he2
    rw [postAttendance_create user classes _ ⟨classId, d2, r2⟩ hc he2']
    refine ⟨rfl, rfl, ?_⟩
    simp

/-- C18, at a concrete input: the seeded teacher marks class `2` for `2025-4-1` and then for
`2025-04-01` on the seeded ledger; both calls create, giving sessions `3` and `4`. -/
theorem postAttendance_dates_are_raw_strings_witness :
    (postAttendance ⟨"1", "teacher"⟩ classes
        (postAttendance ⟨"1", "teacher"⟩ classes attendance ⟨"2", "2025-4-1", []⟩).2
        ⟨"2", "2025-04-01", []⟩).2
      = attendance ++ [⟨"3", "2", "2025-4-1", []⟩, ⟨"4", "2", "2025-04-01", []⟩] :=
  ((postAttendance_dates_are_raw_strings ⟨"1", "teacher"⟩ classes attendance "2" "2025-4-1"
    "2025-04-01" [] [] (by decide) (by decide)).2.2 (by decide) (by decide)).2.2

/-- C19. The token's identity is trusted without consulting the users store: for every caller
identity, roster, ledger and request to one of the four protected routes, the response, the
ledger afterwards and the roster afterwards are the same whatever the users store holds, the
users store itself is left as it was, and the same holds for the route behind the token
validator; so a caller whose id matches no stored user is served like one whose id does. -/
theorem protected_routes_ignore_users (verify : String → Option TokenUser)
    (authHeader : Option String) (user : TokenUser) (users1 users2 : List User)
    (classes : List ClassSection) (ledger : List AttendanceSession) (req : ProtectedRequest) :
    (handleProtected user ⟨users1, classes, ledger⟩ req).1
        = (handleProtected user ⟨users2, classes, ledger⟩ req).1 ∧
      (handleProtected user ⟨users1, classes, ledger⟩ req).2.attendance
        = (handleProtected user ⟨users2, classes, ledger⟩ req).2.attendance ∧
      (handleProtected user ⟨users1, classes, ledger⟩ req).2.classes
        = (handleProtected user ⟨users2, classes, ledger⟩ req).2.classes ∧
      (handleProtected user ⟨users1, classes, ledger⟩ req).2.users = users1 ∧
      (serveProtected verify ⟨users1, classes, ledger⟩ authHeader req).1
        = (serveProtected verify ⟨users2, classes, ledger⟩ authHeader req).1 ∧
      (serveProtected verify ⟨users1, classes, ledger⟩ authHeader req).2.attendance
        = (serveProtected verify ⟨users2, classes, ledger⟩ authHeader req).2.attendance := by
  refine ⟨?_, ?_, ?_, ?_, ?_, ?_⟩
  · cases req <;> rfl
  · cases req <;> rfl
  · cases req <;> rfl
  · cases req <;> rfl
  · unfold serveProtected
    cases authenticateToken verify authHeader with
    | error res => rfl
    | ok u => cases req <;> rfl
  · unfold serveProtected
    cases authenticateToken verify authHeader with
    | error res => rfl
    | ok u => cases req <;> rfl

/-- C20. markAttendance stores the supplied records verbatim: after every authorized call the
first session under the request's key has exactly the request's records, whatever they
contain; and on the seeded stores the teacher `1` marking class `1` with a record for student
`99`, who is in the students of no class with id `1`, leaves that record in the ledger. -/
theorem postAttendance_stores_records_verbatim :
    (∀ (user : TokenUser) (classes : List ClassSection) (ledger : List AttendanceSession)
        (body : MarkBody), CanMark user classes body.classId →
      ∃ s ∈ (postAttendance user classes ledger body).2,
        s.classId = body.classId ∧ s.date = body.date ∧ s.records = body.records) ∧
    CanMark ⟨"1", "teacher"⟩ classes "1" ∧
    (∀ cls ∈ classes, cls.id = "1" → "99" ∉ cls.students) ∧
    (postAttendance ⟨"1", "teacher"⟩ classes attendance
        ⟨"1", "2025-04-05", [⟨"99", "present"⟩]⟩).2
      = attendance ++ [⟨"3", "1", "2025-04-05", [⟨"99", "present"⟩]⟩] := by
  refine ⟨?_, by decide, by decide, by decide⟩
  intro user classes ledger body hc
  obtain ⟨s, hs, hrec⟩ := postAttendance_stores user classes ledger body hc
  have hp := List.find?_some hs
  have hk : s.classId = body.classId ∧ s.date = body.date := by simpa using hp
  exact ⟨s, List.mem_of_find?_eq_some hs, hk.1, hk.2, hrec⟩

/-- C20, at a concrete input: the general statement applied to the seeded teacher marking
class `2` with a record for the unknown student `99`. -/
theorem postAttendance_stores_records_verbatim_witness :
    ∃ s ∈ (postAttendance ⟨"1", "teacher"⟩ classes attendance
        ⟨"2", "2025-04-05", [⟨"99", "present"⟩]⟩).2,
      s.classId = "2" ∧ s.date = "2025-04-05" ∧ s.records = [⟨"99", "present"⟩] :=
  postAttendance_stores_records_verbatim.1 ⟨"1", "teacher"⟩ classes attendance
    ⟨"2", "2025-04-05", [⟨"99", "present"⟩]⟩ (by decide)

end StudentAttendance
